import Mathlib

/-!
Verification of the dataset-reformatting helper of `models/Gemma/lora.ipynb`.

The notebook defines three Python helpers:

* `write_jsonl(fname, json_objs)` — opens `fname` for writing and writes
  `json.dumps(o) + "\n"` for each object `o`, in order;
* `form_question(obj)` — builds the prompt string
  `"QUESTION:" + obj['QUESTION'] + "\n" + "CONTEXT: "`, then for each
  `i, label` in `enumerate(obj['LABELS'])` appends `obj['CONTEXTS'][i] + "\n"`,
  and finally appends the fixed instruction suffix;
* `convert_to_jsonl(data_path, output_path)` — parses the source JSON mapping,
  builds `{"input": form_question(obj), "output": obj['reasoning_required_pred']}`
  for each record in iteration order, writes them with `write_jsonl`, and
  returns the list.

The embedding below models Python dict/list access failures (`KeyError`,
`IndexError`) with an `Except` monad, models `json.load` by passing the parsed
mapping (or a parse/read error) as an `Except` argument, and models the file
written by `write_jsonl` as the string of all bytes written.  `json.dumps` is
modelled with its default behaviour for objects of string fields:
`{"k": v, ...}` with `", "` and `": "` separators, `ensure_ascii=True` string
escaping (two-character escapes for `\" \\ \b \f \n \r \t`, lowercase `\uXXXX`
for other control and all non-ASCII characters, surrogate pairs above U+FFFF).
-/

/-- Tests whether an `Except` result is an error (a raised Python exception). -/
def isErr {ε α : Type} : Except ε α → Bool
  | Except.error _ => true
  | Except.ok _ => false

/-- Number of newline characters in a string; the written file has one line
per newline byte, since every line `write_jsonl` writes is newline-terminated. -/
def countNL (s : String) : Nat :=
  s.data.count '\n'

/-- Errors a record transformation can raise: missing dict key or
list index out of range (Python `KeyError` / `IndexError`). -/
inductive PyError where
  | keyError : String → PyError
  | indexError : PyError
deriving DecidableEq, Repr

/-- One entry of the source mapping, a Python dict.  The transformation reads
the fields `QUESTION`, `CONTEXTS`, `LABELS` and `reasoning_required_pred`;
`none` models absence of the key.  PubMedQA records also carry further fields
the notebook never reads; `final_decision` (the gold answer label) is kept in
the model as the representative of those. -/
structure SourceRecord where
  QUESTION : Option String := none
  CONTEXTS : Option (List String) := none
  LABELS : Option (List String) := none
  reasoning_required_pred : Option String := none
  final_decision : Option String := none
deriving DecidableEq, Repr

/-- One produced record: the pair serialized as
`{"input": ..., "output": ...}`. -/
structure JsonObj where
  input : String
  output : String
deriving DecidableEq, Repr

/-- Python dict access `obj[k]`: the value when the key is present,
`KeyError` otherwise. -/
def getKey {α : Type} (v : Option α) (k : String) : Except PyError α :=
  match v with
  | some x => Except.ok x
  | none => Except.error (PyError.keyError k)

/-- Python list indexing `xs[i]` for a nonnegative index: the element when
`i` is in range, `IndexError` otherwise. -/
def listIndex {α : Type} (xs : List α) (i : Nat) : Except PyError α :=
  match xs.get? i with
  | some x => Except.ok x
  | none => Except.error PyError.indexError

/-- Fixed instruction suffix appended by `form_question`. -/
def instructionTarget : String :=
  "TARGET: the answer to the question given the context is (yes|no|maybe): "

/-- Loop body of `form_question`: `for i, label in enumerate(obj['LABELS']):
st += f"{obj['CONTEXTS'][i]}\n"`.  Each iteration looks up `CONTEXTS` afresh
and indexes it at the running counter `i`; the label value itself is unused. -/
def contextLoop (obj : SourceRecord) : List String → Nat → String → Except PyError String
  | [], _, st => Except.ok st
  | _ :: rest, i, st => do
    let cs ← getKey obj.CONTEXTS "CONTEXTS"
    let c ← listIndex cs i
    contextLoop obj rest (i + 1) (st ++ c ++ "\n")

/-- Embedding of `form_question(obj)` from the notebook. -/
def form_question (obj : SourceRecord) : Except PyError String := do
  let q ← getKey obj.QUESTION "QUESTION"
  let st := "QUESTION:" ++ q ++ "\n"
  let st := st ++ "CONTEXT: "
  let labels ← getKey obj.LABELS "LABELS"
  let st ← contextLoop obj labels 0 st
  Except.ok (st ++ instructionTarget)

/-- Body of the `for k in data.keys():` loop of `convert_to_jsonl` for one
record: the prompt from `form_question` paired with the record's
`reasoning_required_pred` value. -/
def form_example (obj : SourceRecord) : Except PyError JsonObj := do
  let prompt ← form_question obj
  let completion ← getKey obj.reasoning_required_pred "reasoning_required_pred"
  Except.ok { input := prompt, output := completion }

/-- The record loop of `convert_to_jsonl`: one `form_example` per entry of the
source mapping, in iteration order; the first raised error aborts the loop.
The mapping is modelled as its (unique-keyed, insertion-ordered) entry list. -/
def build_objs : List (String × SourceRecord) → Except PyError (List JsonObj)
  | [] => Except.ok []
  | kv :: rest => do
    let o ← form_example kv.2
    let tail ← build_objs rest
    Except.ok (o :: tail)

/-- Lowercase hex digit, as used by Python `json.dumps` in `\uXXXX` escapes. -/
def hexDigit (n : Nat) : Char :=
  if n < 10 then Char.ofNat (48 + n) else Char.ofNat (87 + n)

/-- Four lowercase hex digits of a codepoint below `0x10000`. -/
def hex4 (n : Nat) : List Char :=
  [hexDigit (n / 4096 % 16), hexDigit (n / 256 % 16), hexDigit (n / 16 % 16), hexDigit (n % 16)]

/-- Escape of one character inside a JSON string literal, following
`json.dumps` with its default `ensure_ascii=True`: two-character escapes for
quote, backslash and the C0 controls that have them, `\uXXXX` for the other
controls and all non-ASCII characters, as a surrogate pair above U+FFFF. -/
def escChar (c : Char) : List Char :=
  if c = '"' then ['\\', '"']
  else if c = '\\' then ['\\', '\\']
  else if c = '\x08' then ['\\', 'b']
  else if c = '\x0c' then ['\\', 'f']
  else if c = '\n' then ['\\', 'n']
  else if c = '\r' then ['\\', 'r']
  else if c = '\t' then ['\\', 't']
  else if c.toNat < 0x20 ∨ 0x7e < c.toNat then
    if c.toNat < 0x10000 then '\\' :: 'u' :: hex4 c.toNat
    else '\\' :: 'u' :: hex4 (0xd800 + (c.toNat - 0x10000) / 0x400) ++
         '\\' :: 'u' :: hex4 (0xdc00 + (c.toNat - 0x10000) % 0x400)
  else [c]

/-- Escape of a character sequence inside a JSON string literal. -/
def escList : List Char → List Char
  | [] => []
  | c :: cs => escChar c ++ escList cs

/-- JSON string literal for a string, `json.dumps`-style. -/
def dumpString (s : String) : String :=
  "\"" ++ String.mk (escList s.data) ++ "\""

/-- Embedding of `json.dumps({"input": prompt, "output": completion})`:
default separators put `", "` between members and `": "` after each key. -/
def json_dumps (o : JsonObj) : String :=
  "\x7b\"input\": " ++ dumpString o.input ++ ", \"output\": " ++ dumpString o.output ++ "\x7d"

/-- Concatenation of a list of strings, in order. -/
def strConcat : List String → String
  | [] => ""
  | s :: rest => s ++ strConcat rest

/-- Embedding of `write_jsonl(fname, json_objs)`: the full content the write
loop puts into the file, `json.dumps(o) + "\n"` per object, in order. -/
def write_jsonl (objs : List JsonObj) : String :=
  strConcat (objs.map (fun o => json_dumps o ++ "\n"))

/-- File content after the write loop of `write_jsonl` has completed `k` of
its writes: the file is opened (truncated) first, then lines are written one
by one, so an I/O failure surfacing at write `k + 1` leaves exactly the first
`k` lines in the file. -/
def write_jsonl_upto (objs : List JsonObj) (k : Nat) : String :=
  strConcat ((objs.take k).map (fun o => json_dumps o ++ "\n"))

/-- Embedding of `convert_to_jsonl(data_path, output_path)`.  The argument
models the outcome of `json.load(open(data_path, 'rt'))`: either the parsed
source mapping or a read/parse error.  On success the result pairs the
returned list `json_objs` with the content `write_jsonl` wrote to the output
path; an error propagates to the caller before the output file is opened. -/
def convert_to_jsonl (loaded : Except PyError (List (String × SourceRecord))) :
    Except PyError (List JsonObj × String) := do
  let data ← loaded
  let objs ← build_objs data
  Except.ok (objs, write_jsonl objs)

/-- Numeric value of a hex digit character, upper or lower case. -/
def hexVal (c : Char) : Option Nat :=
  if 48 ≤ c.toNat ∧ c.toNat ≤ 57 then some (c.toNat - 48)
  else if 97 ≤ c.toNat ∧ c.toNat ≤ 102 then some (c.toNat - 87)
  else if 65 ≤ c.toNat ∧ c.toNat ≤ 70 then some (c.toNat - 55)
  else none

/-- Decoding of a two-character JSON escape `\c`. -/
def escDecode (c : Char) : Option Char :=
  if c = '"' then some '"'
  else if c = '\\' then some '\\'
  else if c = '/' then some '/'
  else if c = 'b' then some '\x08'
  else if c = 'f' then some '\x0c'
  else if c = 'n' then some '\n'
  else if c = 'r' then some '\r'
  else if c = 't' then some '\t'
  else none

/-- Decoding of the four hex digits of a `\uXXXX` escape. -/
def hex4val (a b c d : Char) : Option Nat :=
  (hexVal a).bind fun ha =>
    (hexVal b).bind fun hb =>
      (hexVal c).bind fun hc =>
        (hexVal d).map fun hd => 4096 * ha + 256 * hb + 16 * hc + hd

/-- Decoding of one escape sequence: `e` is the character right after the
backslash and `rest2` the input after `e`.  Returns the decoded character and
the remaining input.  A `\uXXXX` escape carrying a high surrogate must be
followed by a `\uXXXX` low surrogate; the pair decodes to one character. -/
def escOut (e : Char) (rest2 : List Char) : Option (Char × List Char) :=
  if e = 'u' then
    match rest2 with
    | a :: b :: c :: d :: rest3 =>
      (hex4val a b c d).bind fun n =>
        if n < 0xd800 ∨ 0xdfff < n then some (Char.ofNat n, rest3)
        else if n < 0xdc00 then
          match rest3 with
          | e2 :: u2 :: a2 :: b2 :: c2 :: d2 :: rest4 =>
            if e2 = '\\' ∧ u2 = 'u' then
              (hex4val a2 b2 c2 d2).bind fun m =>
                if 0xdc00 ≤ m ∧ m ≤ 0xdfff then
                  some (Char.ofNat (0x10000 + (n - 0xd800) * 0x400 + (m - 0xdc00)), rest4)
                else none
            else none
          | _ => none
        else none
    | _ => none
  else (escDecode e).map fun d => (d, rest2)

/-- Dispatch of an escape sequence: `rest` is the input right after a
backslash; an input ending at the backslash is malformed. -/
def parseStrEsc (rest : List Char) : Option (Char × List Char) :=
  match rest with
  | [] => none
  | e :: rest2 => escOut e rest2

/-- JSON string-literal body parser: decodes characters and escape sequences
(including surrogate pairs) up to the closing quote, returning the decoded
characters and the input remaining after the quote.  Raw control characters
and malformed escapes are rejected.  The fuel argument only bounds the number
of iterations; each iteration consumes at least one character, so fuel equal
to the input length (as supplied by `parseStrBody`) never runs out. -/
def parseStrLoop : Nat → List Char → Option (List Char × List Char)
  | 0, _ => none
  | _ + 1, [] => none
  | fuel + 1, c :: rest =>
    if c = '"' then some ([], rest)
    else if c = '\\' then
      (parseStrEsc rest).bind fun dr =>
        (parseStrLoop fuel dr.2).map fun csr => (dr.1 :: csr.1, csr.2)
    else if c.toNat < 0x20 then none
    else (parseStrLoop fuel rest).map fun csr => (c :: csr.1, csr.2)

/-- JSON string-literal body parser, at its sufficient fuel. -/
def parseStrBody (l : List Char) : Option (List Char × List Char) :=
  parseStrLoop l.length l

/-- JSON string literal parser: an opening quote, then the body. -/
def parseStringLit : List Char → Option (String × List Char)
  | [] => none
  | c :: rest =>
    if c = '"' then (parseStrBody rest).map fun p => (String.mk p.1, p.2)
    else none

/-- Consumes the exact character sequence `pat` from the front of `l`. -/
def expectChars : List Char → List Char → Option (List Char)
  | [], l => some l
  | _ :: _, [] => none
  | p :: ps, c :: cs => if c = p then expectChars ps cs else none

/-- Recognition of the closing brace: the line must end right after it. -/
def braceEnd (l : List Char) (res : List (String × String)) : Option (List (String × String)) :=
  match l with
  | [c8] => if c8 = '\x7d' then some res else none
  | _ => none

/-- Parser for one output line as a JSON object with exactly two string
members in `json.dumps` default layout: `{"k1": "v1", "k2": "v2"}`.  Returns
the two key/value pairs with their string values decoded; any other shape
(fewer or more members, non-string values, trailing garbage) is rejected. -/
def parseLineChars : List Char → Option (List (String × String))
  | [] => none
  | c0 :: r0 =>
    if c0 = '\x7b' then
      (parseStringLit r0).bind fun k1 =>
        (expectChars [':', ' '] k1.2).bind fun r2 =>
          (parseStringLit r2).bind fun v1 =>
            (expectChars [',', ' '] v1.2).bind fun r4 =>
              (parseStringLit r4).bind fun k2 =>
                (expectChars [':', ' '] k2.2).bind fun r6 =>
                  (parseStringLit r6).bind fun v2 =>
                    braceEnd v2.2 [(k1.1, v1.1), (k2.1, v2.1)]
    else none

/-- Parser for one output line, on strings. -/
def parseTwoFieldLine (s : String) : Option (List (String × String)) :=
  parseLineChars s.data

/-! ### Basic lemmas about the embedded operations -/

theorem except_bind_ok {ε α β : Type} (a : α) (f : α → Except ε β) :
    (Except.ok a : Except ε α) >>= f = f a := rfl

theorem except_bind_err {ε α β : Type} (e : ε) (f : α → Except ε β) :
    (Except.error e : Except ε α) >>= f = Except.error e := rfl

theorem strConcat_append (xs ys : List String) :
    strConcat (xs ++ ys) = strConcat xs ++ strConcat ys := by
  induction xs with
  | nil => simp [strConcat]
  | cons a l ih => simp [strConcat, ih, String.append_assoc]

theorem countNL_append (s t : String) : countNL (s ++ t) = countNL s + countNL t := by
  simp [countNL, String.data_append, List.count_append]

/-- Evaluation of the context loop when every index it will access is in
range: it appends `cs[i] + "\n"` for the label indices `i`, in order. -/
theorem contextLoop_ok (labels : List String) (obj : SourceRecord) (cs : List String)
    (hc : obj.CONTEXTS = some cs) (i : Nat) (st : String)
    (h : i + labels.length ≤ cs.length) :
    contextLoop obj labels i st =
      Except.ok (st ++ strConcat ((List.range labels.length).map
        (fun j => cs.getD (i + j) "" ++ "\n"))) := by
  induction labels generalizing i st with
  | nil => simp [contextLoop, strConcat]
  | cons l rest ih =>
    have hi : i < cs.length := by
      simp only [List.length_cons] at h
      omega
    have hget : cs.get? i = some (cs.get ⟨i, hi⟩) := List.get?_eq_get hi
    have hgetD : cs.getD i "" = cs.get ⟨i, hi⟩ := by
      simp [List.getD_eq_getElem?_getD, List.getElem?_eq_getElem hi, List.get_eq_getElem]
    rw [contextLoop]
    simp only [getKey, hc, listIndex, hget, except_bind_ok]
    rw [ih (i + 1) (st ++ cs.get ⟨i, hi⟩ ++ "\n") (by simp only [List.length_cons] at h; omega)]
    congr 1
    simp only [List.length_cons]
    rw [List.range_succ_eq_map, List.map_cons, List.map_map, strConcat]
    have harg : ((fun j => cs.getD (i + j) "" ++ "\n") ∘ Nat.succ) =
        (fun j => cs.getD (i + 1 + j) "" ++ "\n") := by
      funext j
      simp only [Function.comp]
      rw [show i + Nat.succ j = i + 1 + j by omega]
    rw [harg]
    simp [hgetD, String.append_assoc, List.getElem?_eq_getElem hi]

/-- Evaluation of the context loop when it runs past the end of the context
list: the first out-of-range access raises `IndexError`. -/
theorem contextLoop_err (labels : List String) (obj : SourceRecord) (cs : List String)
    (hc : obj.CONTEXTS = some cs) (i : Nat) (st : String)
    (hne : labels ≠ []) (h : cs.length < i + labels.length) :
    contextLoop obj labels i st = Except.error PyError.indexError := by
  induction labels generalizing i st with
  | nil => exact absurd rfl hne
  | cons l rest ih =>
    rw [contextLoop]
    simp only [getKey, hc, except_bind_ok, listIndex]
    by_cases hi : i < cs.length
    · have hget : cs.get? i = some (cs.get ⟨i, hi⟩) := List.get?_eq_get hi
      rw [hget]
      simp only [except_bind_ok]
      have hrest : rest ≠ [] := by
        intro hr
        subst hr
        simp only [List.length_cons, List.length_nil] at h
        omega
      exact ih (i + 1) (st ++ cs.get ⟨i, hi⟩ ++ "\n") hrest
        (by simp only [List.length_cons] at h; omega)
    · have hget : cs.get? i = none := by
        rw [List.get?_eq_none]
        omega
      rw [hget]
      rfl

/-- Evaluation of the context loop when `CONTEXTS` is absent and at least one
label drives an iteration: the first lookup raises `KeyError`. -/
theorem contextLoop_no_contexts (obj : SourceRecord) (hc : obj.CONTEXTS = none)
    (l : String) (rest : List String) (i : Nat) (st : String) :
    contextLoop obj (l :: rest) i st = Except.error (PyError.keyError "CONTEXTS") := by
  rw [contextLoop]
  simp only [getKey, hc, except_bind_err]

/-- Evaluation of `form_question` when the record is missing `QUESTION`. -/
theorem form_question_q_none (r : SourceRecord) (h : r.QUESTION = none) :
    form_question r = Except.error (PyError.keyError "QUESTION") := by
  simp only [form_question, getKey, h, except_bind_err]

/-- Evaluation of `form_question` when the record has a question but is
missing `LABELS`. -/
theorem form_question_labels_none (r : SourceRecord) (q : String)
    (hq : r.QUESTION = some q) (h : r.LABELS = none) :
    form_question r = Except.error (PyError.keyError "LABELS") := by
  simp only [form_question, getKey, hq, h, except_bind_ok, except_bind_err]

/-- Evaluation of `form_question` when the record has a question and a
nonempty label list but is missing `CONTEXTS`. -/
theorem form_question_contexts_none (r : SourceRecord) (q : String) (l : String)
    (rest : List String) (hq : r.QUESTION = some q) (hl : r.LABELS = some (l :: rest))
    (hc : r.CONTEXTS = none) :
    form_question r = Except.error (PyError.keyError "CONTEXTS") := by
  simp only [form_question, getKey, hq, hl, except_bind_ok]
  rw [contextLoop_no_contexts r hc]
  rfl

/-- Evaluation of `form_question` on a well-formed record: the prompt is the
question line, the `"CONTEXT: "` marker, the first `LABELS`-count context
passages each followed by a newline, and the instruction suffix. -/
theorem form_question_ok (r : SourceRecord) (q : String) (cs ls : List String)
    (hq : r.QUESTION = some q) (hc : r.CONTEXTS = some cs) (hl : r.LABELS = some ls)
    (hlen : ls.length ≤ cs.length) :
    form_question r = Except.ok
      ("QUESTION:" ++ q ++ "\n" ++ "CONTEXT: " ++
        strConcat ((List.range ls.length).map (fun i => cs.getD i "" ++ "\n")) ++
        instructionTarget) := by
  simp only [form_question, getKey, hq, hl, except_bind_ok]
  rw [contextLoop_ok ls r cs hc 0 ("QUESTION:" ++ q ++ "\n" ++ "CONTEXT: ")
    (by omega)]
  simp only [except_bind_ok, Nat.zero_add]

/-- Record with no fields at all. -/
def emptyRecord : SourceRecord := {}

/-- Default mapping entry, used only as the out-of-range default of `List.getD`. -/
def dfltEntry : String × SourceRecord := ("", emptyRecord)

/-- Default produced record, used only as the out-of-range default of `List.getD`. -/
def dfltObj : JsonObj := { input := "", output := "" }

/-- Propagation of a `form_question` error through `form_example`. -/
theorem form_example_err_of_fq (obj : SourceRecord) (e : PyError)
    (h : form_question obj = Except.error e) : form_example obj = Except.error e := by
  simp only [form_example, h, except_bind_err]

/-- Evaluation of `form_example` when both steps succeed. -/
theorem form_example_ok_of (obj : SourceRecord) (st ans : String)
    (hq : form_question obj = Except.ok st) (ha : obj.reasoning_required_pred = some ans) :
    form_example obj = Except.ok { input := st, output := ans } := by
  simp only [form_example, hq, getKey, ha, except_bind_ok]

/-- The completion of a successfully produced record is the record's
`reasoning_required_pred` value, verbatim. -/
theorem form_example_output (obj : SourceRecord) (o : JsonObj)
    (h : form_example obj = Except.ok o) : obj.reasoning_required_pred = some o.output := by
  rw [form_example] at h
  cases hq : form_question obj with
  | error e => rw [hq] at h; exact absurd h (by simp [except_bind_err])
  | ok st =>
    rw [hq] at h
    simp only [except_bind_ok] at h
    cases ha : obj.reasoning_required_pred with
    | none => rw [ha] at h; exact absurd h (by simp [getKey, except_bind_err])
    | some ans =>
      rw [ha] at h
      simp only [getKey, except_bind_ok] at h
      cases h
      rfl

/-- Failure of `form_example` when the record is missing its answer field. -/
theorem form_example_reasoning_none (obj : SourceRecord)
    (h : obj.reasoning_required_pred = none) : isErr (form_example obj) = true := by
  rw [form_example]
  cases hq : form_question obj with
  | error e => simp [except_bind_err, isErr]
  | ok st => simp [except_bind_ok, getKey, h, except_bind_err, isErr]

/-- Propagation of a source read/parse error through `convert_to_jsonl`:
the function fails before the output file is opened, so no content exists. -/
theorem convert_load_err (e : PyError) :
    convert_to_jsonl (Except.error e) = Except.error e := rfl

/-- Propagation of a record-loop error through `convert_to_jsonl`. -/
theorem convert_err_of_build (data : List (String × SourceRecord)) (e : PyError)
    (h : build_objs data = Except.error e) :
    convert_to_jsonl (Except.ok data) = Except.error e := by
  simp only [convert_to_jsonl, except_bind_ok, h, except_bind_err]

/-- Decomposition of a successful `convert_to_jsonl` run. -/
theorem convert_ok_elim (data : List (String × SourceRecord)) (objs : List JsonObj)
    (content : String) (h : convert_to_jsonl (Except.ok data) = Except.ok (objs, content)) :
    build_objs data = Except.ok objs ∧ content = write_jsonl objs := by
  rw [convert_to_jsonl] at h
  simp only [except_bind_ok] at h
  cases hb : build_objs data with
  | error e => rw [hb] at h; exact absurd h (by simp [except_bind_ok, except_bind_err])
  | ok objs0 =>
    rw [hb] at h
    simp only [except_bind_ok] at h
    cases h
    exact ⟨rfl, rfl⟩

/-- Evaluation of `convert_to_jsonl` on a one-record mapping whose record
transformation fails. -/
theorem convert_one_err (k : String) (r : SourceRecord) (e : PyError)
    (h : form_example r = Except.error e) :
    convert_to_jsonl (Except.ok [(k, r)]) = Except.error e := by
  apply convert_err_of_build
  simp only [build_objs, h, except_bind_err]

/-- Evaluation of `convert_to_jsonl` on a one-record mapping whose record
transformation succeeds. -/
theorem convert_one_ok (k : String) (r : SourceRecord) (o : JsonObj)
    (h : form_example r = Except.ok o) :
    convert_to_jsonl (Except.ok [(k, r)]) = Except.ok ([o], write_jsonl [o]) := by
  simp only [convert_to_jsonl, build_objs, h, except_bind_ok]

/-- Length and order of the record loop's result: one produced record per
source entry, the `i`-th produced record coming from the `i`-th source
entry. -/
theorem build_objs_length_order (data : List (String × SourceRecord)) (objs : List JsonObj)
    (h : build_objs data = Except.ok objs) :
    objs.length = data.length ∧
      ∀ i, i < data.length → form_example (data.getD i dfltEntry).2 = Except.ok (objs.getD i dfltObj) := by
  induction data generalizing objs with
  | nil =>
    rw [build_objs] at h
    cases h
    exact ⟨rfl, fun i hi => absurd hi (by simp)⟩
  | cons kv rest ih =>
    rw [build_objs] at h
    cases ho : form_example kv.2 with
    | error e => rw [ho] at h; exact absurd h (by simp [except_bind_err])
    | ok o =>
      rw [ho] at h
      simp only [except_bind_ok] at h
      cases ht : build_objs rest with
      | error e => rw [ht] at h; exact absurd h (by simp [except_bind_err])
      | ok tail =>
        rw [ht] at h
        simp only [except_bind_ok] at h
        cases h
        obtain ⟨hlen, hget⟩ := ih tail ht
        refine ⟨by simp [hlen], fun i hi => ?_⟩
        cases i with
        | zero => simpa [List.getD] using ho
        | succ j =>
          simp only [List.getD_cons_succ]
          exact hget j (by simp only [List.length_cons] at hi; omega)

/-! ### Round trip of the `json.dumps` string escaping through the parser -/

theorem hexVal_hexDigit : ∀ d, d < 16 → hexVal (hexDigit d) = some d := by decide

theorem hex4val_hexDigit4 (n : Nat) (h : n < 0x10000) :
    hex4val (hexDigit (n / 4096 % 16)) (hexDigit (n / 256 % 16))
      (hexDigit (n / 16 % 16)) (hexDigit (n % 16)) = some n := by
  rw [hex4val, hexVal_hexDigit (n / 4096 % 16) (by omega), hexVal_hexDigit (n / 256 % 16) (by omega),
    hexVal_hexDigit (n / 16 % 16) (by omega), hexVal_hexDigit (n % 16) (by omega)]
  simp only [Option.some_bind, Option.map_some']
  congr 1
  omega

/-- Parsing of a BMP `\uXXXX` escape body emitted by `escChar`. -/
theorem escOut_u (n : Nat) (hn : n < 0x10000) (hs : n < 0xd800 ∨ 0xdfff < n) (l : List Char) :
    escOut 'u' (hex4 n ++ l) = some (Char.ofNat n, l) := by
  simp only [escOut, hex4, List.cons_append, List.nil_append]
  rw [if_pos trivial]
  simp only [hex4val_hexDigit4 n hn]
  rw [Option.some_bind]
  rw [if_pos hs]

/-- Parsing of a surrogate-pair escape body emitted by `escChar`. -/
theorem escOut_pair (n : Nat) (hn1 : 0x10000 ≤ n) (hn2 : n < 0x110000) (l : List Char) :
    escOut 'u' (hex4 (0xd800 + (n - 0x10000) / 0x400) ++
      ('\\' :: 'u' :: (hex4 (0xdc00 + (n - 0x10000) % 0x400) ++ l))) =
    some (Char.ofNat n, l) := by
  have hhi : 0xd800 + (n - 0x10000) / 0x400 < 0x10000 := by omega
  have hlo : 0xdc00 + (n - 0x10000) % 0x400 < 0x10000 := by omega
  simp only [escOut, hex4, List.cons_append, List.nil_append]
  rw [if_pos trivial]
  simp only [hex4val_hexDigit4 _ hhi]
  rw [Option.some_bind]
  rw [if_neg (by omega), if_pos (by omega), if_pos (And.intro trivial trivial)]
  rw [hex4val_hexDigit4 _ hlo, Option.some_bind]
  rw [if_pos (And.intro (by omega) (by omega))]
  have hX : 0x10000 + (0xd800 + (n - 0x10000) / 0x400 - 0xd800) * 0x400 +
      (0xdc00 + (n - 0x10000) % 0x400 - 0xdc00) = n := by omega
  rw [hX]

theorem parse_escChar_loop (c : Char) (fuel : Nat) (l : List Char) (cs0 r0 : List Char)
    (cont : parseStrLoop fuel l = some (cs0, r0)) :
    parseStrLoop (fuel + 1) (escChar c ++ l) = some (c :: cs0, r0) := by
  have ht : c.toNat = c.val.toNat := rfl
  by_cases h1 : c = '"'
  · subst h1; simp [escChar, parseStrLoop, parseStrEsc, escOut, escDecode, cont]
  by_cases h2 : c = '\\'
  · subst h2; simp [escChar, parseStrLoop, parseStrEsc, escOut, escDecode, cont]
  by_cases h3 : c = '\x08'
  · subst h3; simp [escChar, parseStrLoop, parseStrEsc, escOut, escDecode, cont]
  by_cases h4 : c = '\x0c'
  · subst h4; simp [escChar, parseStrLoop, parseStrEsc, escOut, escDecode, cont]
  by_cases h5 : c = '\n'
  · subst h5; simp [escChar, parseStrLoop, parseStrEsc, escOut, escDecode, cont]
  by_cases h6 : c = '\r'
  · subst h6; simp [escChar, parseStrLoop, parseStrEsc, escOut, escDecode, cont]
  by_cases h7 : c = '\t'
  · subst h7; simp [escChar, parseStrLoop, parseStrEsc, escOut, escDecode, cont]
  by_cases h8 : c.toNat < 0x20 ∨ 0x7e < c.toNat
  · by_cases h9 : c.toNat < 0x10000
    · have hs : c.toNat < 0xd800 ∨ 0xdfff < c.toNat := by
        rcases c.valid with hv | hv
        · exact Or.inl (by omega)
        · exact Or.inr (by omega)
      have he : escChar c = '\\' :: 'u' :: hex4 c.toNat := by
        simp [escChar, h1, h2, h3, h4, h5, h6, h7, h8, h9]
      rw [he]
      simp only [List.cons_append]
      simp only [parseStrLoop, parseStrEsc, if_neg (by decide : ¬ ('\\' : Char) = '"'), if_pos rfl]
      rw [escOut_u c.toNat h9 hs l]
      rw [Option.some_bind]
      rw [cont]
      simp [Char.ofNat_toNat]
    · have hv2 : c.toNat < 0x110000 := by
        rcases c.valid with hv | hv
        · omega
        · omega
      have hv1 : 0x10000 ≤ c.toNat := by omega
      have he : escChar c =
          ('\\' :: 'u' :: hex4 (0xd800 + (c.toNat - 0x10000) / 0x400)) ++
          ('\\' :: 'u' :: hex4 (0xdc00 + (c.toNat - 0x10000) % 0x400)) := by
        simp [escChar, h1, h2, h3, h4, h5, h6, h7, h8, h9]
      rw [he]
      simp only [List.cons_append, List.append_assoc]
      simp only [parseStrLoop, parseStrEsc, if_neg (by decide : ¬ ('\\' : Char) = '"'), if_pos rfl]
      rw [escOut_pair c.toNat hv1 hv2 l]
      rw [Option.some_bind]
      rw [cont]
      simp [Char.ofNat_toNat]
  · have h8a : ¬ c.toNat < 0x20 := by omega
    have he : escChar c = [c] := by
      simp [escChar, h1, h2, h3, h4, h5, h6, h7, h8]
    rw [he]
    simp only [List.cons_append, List.nil_append]
    simp only [parseStrLoop]
    rw [if_neg h1, if_neg h2, if_neg h8a]
    rw [cont]
    rfl

theorem parseStrLoop_mono (fuel fuel' : Nat) (l : List Char) (res : List Char × List Char)
    (hf : fuel ≤ fuel') (h : parseStrLoop fuel l = some res) :
    parseStrLoop fuel' l = some res := by
  induction fuel generalizing fuel' l res with
  | zero => rw [parseStrLoop] at h; cases h
  | succ fuel ih =>
    obtain ⟨f', rfl⟩ : ∃ f', fuel' = f' + 1 := ⟨fuel' - 1, by omega⟩
    cases l with
    | nil => rw [parseStrLoop] at h; cases h
    | cons c rest =>
      simp only [parseStrLoop] at h ⊢
      by_cases h1 : c = '"'
      · rw [if_pos h1] at h ⊢; exact h
      rw [if_neg h1] at h ⊢
      by_cases h2 : c = '\\'
      · rw [if_pos h2] at h ⊢
        cases hesc : parseStrEsc rest with
        | none => rw [hesc] at h; simp at h
        | some dr =>
          rw [hesc] at h
          rw [Option.some_bind] at h ⊢
          cases hrec : parseStrLoop fuel dr.2 with
          | none => rw [hrec] at h; simp at h
          | some csr =>
            rw [hrec] at h
            rw [ih f' dr.2 csr (by omega) hrec]
            exact h
      rw [if_neg h2] at h ⊢
      by_cases h3 : c.toNat < 0x20
      · rw [if_pos h3] at h; cases h
      rw [if_neg h3] at h ⊢
      cases hrec : parseStrLoop fuel rest with
      | none => rw [hrec] at h; simp at h
      | some csr =>
        rw [hrec] at h
        rw [ih f' rest csr (by omega) hrec]
        exact h

theorem escChar_length_pos (c : Char) : 1 ≤ (escChar c).length := by
  simp only [escChar]
  split_ifs <;> simp [hex4]

theorem escList_length_ge (cs : List Char) : cs.length ≤ (escList cs).length := by
  induction cs with
  | nil => simp [escList]
  | cons c cs ih =>
    have h1 := escChar_length_pos c
    simp only [escList, List.length_append, List.length_cons]
    omega

theorem parse_escList_loop (cs : List Char) (fuel : Nat) (l : List Char) (cs0 r0 : List Char)
    (cont : parseStrLoop fuel l = some (cs0, r0)) :
    parseStrLoop (cs.length + fuel) (escList cs ++ l) = some (cs ++ cs0, r0) := by
  induction cs generalizing fuel l cs0 r0 with
  | nil => simpa [escList] using cont
  | cons c cs ih =>
    have hlen : (c :: cs).length + fuel = (cs.length + fuel) + 1 := by
      simp only [List.length_cons]
      omega
    rw [hlen]
    rw [show escList (c :: cs) ++ l = escChar c ++ (escList cs ++ l) from by
      simp [escList, List.append_assoc]]
    rw [parse_escChar_loop c (cs.length + fuel) (escList cs ++ l) (cs ++ cs0) r0 (ih fuel l cs0 r0 cont)]
    simp

theorem parseStrBody_escape (s : String) (rest : List Char) :
    parseStrBody (escList s.data ++ '"' :: rest) = some (s.data, rest) := by
  have hbase : parseStrLoop (rest.length + 1) ('"' :: rest) = some ([], rest) := by
    simp [parseStrLoop]
  have hstep := parse_escList_loop s.data (rest.length + 1) ('"' :: rest) [] rest hbase
  have hfuel : s.data.length + (rest.length + 1) ≤ (escList s.data ++ '"' :: rest).length := by
    have := escList_length_ge s.data
    simp only [List.length_append, List.length_cons]
    omega
  have hres := parseStrLoop_mono _ _ _ _ hfuel hstep
  rw [parseStrBody]
  simpa using hres

theorem parseStringLit_quote (s : String) (rest : List Char) :
    parseStringLit ('"' :: (escList s.data ++ '"' :: rest)) = some (s, rest) := by
  simp only [parseStringLit]
  rw [if_pos trivial]
  rw [parseStrBody_escape]
  rfl

theorem data_json_dumps (o : JsonObj) : (json_dumps o).data =
    '\x7b' :: '"' :: (escList "input".data ++ '"' :: ':' :: ' ' ::
      ('"' :: (escList o.input.data ++ '"' :: ',' :: ' ' ::
        ('"' :: (escList "output".data ++ '"' :: ':' :: ' ' ::
          ('"' :: (escList o.output.data ++ ['"', '\x7d']))))))) := by
  have h1 : ("\x7b\"input\": " : String).data =
      ['\x7b', '"', 'i', 'n', 'p', 'u', 't', '"', ':', ' '] := rfl
  have h2 : (", \"output\": " : String).data =
      [',', ' ', '"', 'o', 'u', 't', 'p', 'u', 't', '"', ':', ' '] := rfl
  have h3 : ("\x7d" : String).data = ['\x7d'] := rfl
  have h4 : ("\"" : String).data = ['"'] := rfl
  have h5 : ∀ l : List Char, (String.mk l).data = l := fun l => rfl
  have hk1 : escList "input".data = ['i', 'n', 'p', 'u', 't'] := by decide
  have hk2 : escList "output".data = ['o', 'u', 't', 'p', 'u', 't'] := by decide
  simp only [json_dumps, dumpString, String.data_append, h1, h2, h3, h4, h5, hk1, hk2]
  simp [List.cons_append, List.nil_append, List.append_assoc]

theorem parse_dumps (o : JsonObj) :
    parseTwoFieldLine (json_dumps o) = some [("input", o.input), ("output", o.output)] := by
  rw [parseTwoFieldLine, data_json_dumps]
  simp only [parseLineChars]
  rw [if_pos trivial]
  rw [parseStringLit_quote "input" _, Option.some_bind]
  simp only [expectChars, if_true, Option.some_bind]
  rw [parseStringLit_quote o.input _, Option.some_bind]
  simp only [expectChars, if_true, Option.some_bind]
  rw [parseStringLit_quote "output" _, Option.some_bind]
  simp only [expectChars, if_true, Option.some_bind]
  rw [parseStringLit_quote o.output _, Option.some_bind]
  simp [braceEnd]

/-! ### Newline counting: every written line is exactly one file line -/

theorem escChar_no_newline (c : Char) : ¬ ('\n' ∈ escChar c) := by
  simp only [escChar]
  have hhex : ∀ m : Nat, '\n' ∈ hex4 m → False := by
    intro m hm
    have h16 : ∀ d, d < 16 → hexDigit d ≠ '\n' := by decide
    simp only [hex4, List.mem_cons, List.not_mem_nil, or_false] at hm
    rcases hm with h | h | h | h <;>
      exact absurd h.symm (h16 _ (Nat.mod_lt _ (by omega)))
  split_ifs with h1 h2 h3 h4 h5 h6 h7 h8 h9
  · simp
  · simp
  · simp
  · simp
  · simp
  · simp
  · simp
  · simp only [List.mem_cons]
    intro hm
    rcases hm with h | h | h
    · cases h
    · cases h
    · exact hhex _ h
  · simp only [List.cons_append, List.mem_cons, List.mem_append]
    intro hm
    rcases hm with h | h | h
    · cases h
    · cases h
    · rcases h with h | h
      · exact hhex _ h
      · rcases h with h | h | h
        · cases h
        · cases h
        · exact hhex _ h
  · simp only [List.mem_singleton]
    intro hm
    subst hm
    simp only [not_or, not_lt] at h8
    have : ('\n').toNat = 10 := rfl
    omega

theorem no_newline_escList (cs : List Char) : ¬ '\n' ∈ escList cs := by
  induction cs with
  | nil => simp [escList]
  | cons c cs ih =>
    simp only [escList, List.mem_append]
    rintro (h | h)
    · exact escChar_no_newline c h
    · exact ih h

/-- A serialized record contains no newline byte: every newline of the
original strings is escaped, so one written line is one file line. -/
theorem countNL_json_dumps (o : JsonObj) : countNL (json_dumps o) = 0 := by
  have h1 := List.count_eq_zero.mpr (no_newline_escList o.input.data)
  have h2 := List.count_eq_zero.mpr (no_newline_escList o.output.data)
  have h3 := List.count_eq_zero.mpr (no_newline_escList ("input".data))
  have h4 := List.count_eq_zero.mpr (no_newline_escList ("output".data))
  simp [countNL, data_json_dumps, List.count_cons, List.count_append, h1, h2, h3, h4]

theorem countNL_write_jsonl (objs : List JsonObj) : countNL (write_jsonl objs) = objs.length := by
  induction objs with
  | nil => rfl
  | cons o objs ih =>
    have hw : write_jsonl (o :: objs) = (json_dumps o ++ "\n") ++ write_jsonl objs := by
      simp [write_jsonl, strConcat, List.map_cons]
    rw [hw, countNL_append, countNL_append, countNL_json_dumps, ih]
    have hn : countNL "\n" = 1 := rfl
    rw [hn]
    simp only [List.length_cons]
    omega

deriving instance DecidableEq for Except

/-! ### Additional evaluation lemmas for records with unusual shapes -/

/-- Evaluation of `form_question` when the label list is empty: the context
loop body never runs, so `CONTEXTS` is never looked up. -/
theorem form_question_empty_labels (r : SourceRecord) (q : String)
    (hq : r.QUESTION = some q) (hl : r.LABELS = some []) :
    form_question r = Except.ok ("QUESTION:" ++ q ++ "\n" ++ "CONTEXT: " ++ instructionTarget) := by
  simp only [form_question, getKey, hq, hl, except_bind_ok, contextLoop]

/-- Error propagation from a one-record transformation into the conversion. -/
theorem convert_one_isErr_of_fq (k : String) (r : SourceRecord) (e : PyError)
    (h : form_question r = Except.error e) :
    isErr (convert_to_jsonl (Except.ok [(k, r)])) = true := by
  rw [convert_one_err k r e (form_example_err_of_fq r e h)]
  rfl

/-- Error propagation from `form_example` into the conversion. -/
theorem convert_one_isErr (k : String) (r : SourceRecord)
    (h : isErr (form_example r) = true) :
    isErr (convert_to_jsonl (Except.ok [(k, r)])) = true := by
  cases hfe : form_example r with
  | error e =>
    rw [convert_one_err k r e hfe]
    rfl
  | ok o =>
    rw [hfe] at h
    exact absurd h (by simp [isErr])

/-! ### The claims -/

/-- C1: for every source record holding a question string, a context array, a
label array and an answer value — with the contexts at least as numerous as
the labels, so that every access `CONTEXTS[i]` made by the loop is in
range — the produced `input` is exactly `"QUESTION:"` immediately followed by
the question and a newline, then `"CONTEXT: "`, then `contexts[i] ++ "\n"`
for each index `i` from `0` to `labels.length - 1`, then the fixed
instruction suffix; the label values themselves never appear (the right-hand
side depends only on the label count). -/
theorem spec_C1 (r : SourceRecord) (q ans : String) (cs ls : List String)
    (hq : r.QUESTION = some q) (hc : r.CONTEXTS = some cs) (hl : r.LABELS = some ls)
    (ha : r.reasoning_required_pred = some ans) (hlen : ls.length ≤ cs.length) :
    form_example r = Except.ok
      { input := "QUESTION:" ++ q ++ "\n" ++ "CONTEXT: " ++
          strConcat ((List.range ls.length).map (fun i => cs.getD i "" ++ "\n")) ++
          instructionTarget,
        output := ans } :=
  form_example_ok_of r _ ans (form_question_ok r q cs ls hq hc hl hlen) ha

/-- Fixture for the witness of C1. -/
def recC1 : SourceRecord :=
  { QUESTION := some "Q?", CONTEXTS := some ["c1", "c2"], LABELS := some ["a", "b"],
    reasoning_required_pred := some "yes" }

/-- Witness for C1 at a concrete two-context record. -/
theorem spec_C1_witness :
    form_example recC1 = Except.ok
      { input := "QUESTION:" ++ "Q?" ++ "\n" ++ "CONTEXT: " ++
          strConcat ((List.range (["a", "b"] : List String).length).map
            (fun i => (["c1", "c2"] : List String).getD i "" ++ "\n")) ++
          instructionTarget,
        output := "yes" } :=
  spec_C1 recC1 "Q?" "yes" ["c1", "c2"] ["a", "b"] rfl rfl rfl rfl (by decide)

/-- Fixture: the source record of the spec's concrete scenario. -/
def recC2 : SourceRecord :=
  { QUESTION := some "Is X true?", CONTEXTS := some ["Evidence A"], LABELS := some ["L1"],
    reasoning_required_pred := some "yes" }

/-- C2: on the single-record mapping of the spec's scenario the conversion
returns exactly one record, and the written file is exactly the expected
serialized line followed by the terminating newline of the write loop. -/
theorem spec_C2 :
    convert_to_jsonl (Except.ok [("q1", recC2)]) =
      Except.ok
        ([{ input := "QUESTION:Is X true?\nCONTEXT: Evidence A\nTARGET: the answer to the question given the context is (yes|no|maybe): ",
            output := "yes" }],
         "\x7b\"input\": \"QUESTION:Is X true?\\nCONTEXT: Evidence A\\nTARGET: the answer to the question given the context is (yes|no|maybe): \", \"output\": \"yes\"\x7d\n") := by
  decide

/-- C3: every prompt `form_question` succeeds in building ends, verbatim,
with the fixed instruction suffix: it is some prefix followed by
`instructionTarget`. -/
theorem spec_C3 (r : SourceRecord) (st : String) (h : form_question r = Except.ok st) :
    ∃ p, st = p ++ instructionTarget := by
  rw [form_question] at h
  cases hQ : r.QUESTION with
  | none => rw [hQ] at h; exact absurd h (by simp [getKey, except_bind_err])
  | some q =>
    rw [hQ] at h
    simp only [getKey, except_bind_ok] at h
    cases hL : r.LABELS with
    | none => rw [hL] at h; exact absurd h (by simp [getKey, except_bind_err])
    | some ls =>
      rw [hL] at h
      simp only [getKey, except_bind_ok] at h
      cases hcl : contextLoop r ls 0 ("QUESTION:" ++ q ++ "\n" ++ "CONTEXT: ") with
      | error e => rw [hcl] at h; exact absurd h (by simp [except_bind_err])
      | ok st0 =>
        rw [hcl] at h
        simp only [except_bind_ok] at h
        cases h
        exact ⟨st0, rfl⟩

/-- Fixture for the witness of C3: a record with empty contexts and labels. -/
def recC3 : SourceRecord :=
  { QUESTION := some "q", CONTEXTS := some [], LABELS := some [],
    reasoning_required_pred := some "yes" }

/-- Witness for C3 at a record with empty context and label sequences. -/
theorem spec_C3_witness :
    ∃ p, ("QUESTION:q\nCONTEXT: " ++ instructionTarget) = p ++ instructionTarget :=
  spec_C3 recC3 ("QUESTION:q\nCONTEXT: " ++ instructionTarget) (by decide)

/-- C4: a successful conversion yields exactly one produced record per entry
of the source mapping; the written file holds exactly that many lines (one
newline per line, and serialized records contain no newline byte); and the
`i`-th produced record is the transformation of the `i`-th source entry, so
the output order is the mapping's iteration order. -/
theorem spec_C4 (data : List (String × SourceRecord)) (objs : List JsonObj) (content : String)
    (h : convert_to_jsonl (Except.ok data) = Except.ok (objs, content)) :
    objs.length = data.length ∧ countNL content = data.length ∧
      ∀ i, i < data.length →
        form_example (data.getD i dfltEntry).2 = Except.ok (objs.getD i dfltObj) := by
  obtain ⟨hb, hcont⟩ := convert_ok_elim data objs content h
  obtain ⟨hlen, horder⟩ := build_objs_length_order data objs hb
  refine ⟨hlen, ?_, horder⟩
  rw [hcont, countNL_write_jsonl, hlen]

/-- Fixture for the witness of C4. -/
def recC4a : SourceRecord :=
  { QUESTION := some "A?", CONTEXTS := some ["ca"], LABELS := some ["l"],
    reasoning_required_pred := some "yes" }

/-- Fixture for the witness of C4. -/
def recC4b : SourceRecord :=
  { QUESTION := some "B?", CONTEXTS := some [], LABELS := some [],
    reasoning_required_pred := some "no" }

/-- Fixture: a two-record source mapping. -/
def dataC4 : List (String × SourceRecord) := [("k1", recC4a), ("k2", recC4b)]

/-- Fixture: the two records the conversion produces for `dataC4`. -/
def objsC4 : List JsonObj :=
  [{ input := "QUESTION:A?\nCONTEXT: ca\n" ++ instructionTarget, output := "yes" },
   { input := "QUESTION:B?\nCONTEXT: " ++ instructionTarget, output := "no" }]

set_option maxRecDepth 8192 in
/-- Witness for C4 on a concrete two-record mapping. -/
theorem spec_C4_witness :
    objsC4.length = dataC4.length ∧ countNL (write_jsonl objsC4) = dataC4.length ∧
      form_example (dataC4.getD 0 dfltEntry).2 = Except.ok (objsC4.getD 0 dfltObj) :=
  have h := spec_C4 dataC4 objsC4 (write_jsonl objsC4) (by decide)
  ⟨h.1, h.2.1, h.2.2 0 (by decide)⟩

/-- Fixture: a record carrying both the hard-coded answer field
`reasoning_required_pred` (value `"yes"`) and the other answer-bearing field
`final_decision` (value `"no"`). -/
def recC5 : SourceRecord :=
  { QUESTION := some "Is X true?", CONTEXTS := some ["Evidence A"], LABELS := some ["L1"],
    reasoning_required_pred := some "yes", final_decision := some "no" }

/-- Fixture: the record the conversion produces for `recC5`. -/
def objC5 : JsonObj :=
  { input := "QUESTION:Is X true?\nCONTEXT: Evidence A\n" ++ instructionTarget, output := "yes" }

/-- C5 counterexample: the invocation surface offers no field-key choice —
`convert_to_jsonl` takes only the parsed source — and on a record whose other
answer-bearing field `final_decision` is `"no"` the produced `output` is
still `"yes"`, the value of the hard-coded field `reasoning_required_pred`;
no caller-specified field key exists. -/
theorem spec_C5_counterexample :
    recC5.final_decision = some "no" ∧
    convert_to_jsonl (Except.ok [("q1", recC5)]) =
      Except.ok ([objC5], write_jsonl [objC5]) ∧
    ("yes" : String) ≠ "no" :=
  ⟨rfl, by decide, by decide⟩

/-- C5 amended: the completion written as each record's `output` value is
taken verbatim from the fixed field `reasoning_required_pred`; the field name
is hard-coded in the transformation, not chosen by the caller. -/
theorem spec_C5_amended (data : List (String × SourceRecord)) (objs : List JsonObj)
    (content : String) (h : convert_to_jsonl (Except.ok data) = Except.ok (objs, content)) :
    ∀ i, i < data.length →
      ((data.getD i dfltEntry).2).reasoning_required_pred =
        some ((objs.getD i dfltObj).output) := by
  obtain ⟨hb, _⟩ := convert_ok_elim data objs content h
  obtain ⟨_, horder⟩ := build_objs_length_order data objs hb
  intro i hi
  exact form_example_output _ _ (horder i hi)

/-- Witness for the amended C5 at the `recC5` fixture. -/
theorem spec_C5_witness :
    ((([("q1", recC5)] : List (String × SourceRecord)).getD 0 dfltEntry).2).reasoning_required_pred =
      some ((([objC5] : List JsonObj).getD 0 dfltObj).output) :=
  spec_C5_amended [("q1", recC5)] [objC5] (write_jsonl [objC5]) (by decide) 0 (by decide)

/-- Fixture: record missing `QUESTION`. -/
def recC6q : SourceRecord :=
  { CONTEXTS := some ["c"], LABELS := some ["l"], reasoning_required_pred := some "y" }

/-- Fixture: record missing `LABELS`. -/
def recC6l : SourceRecord :=
  { QUESTION := some "q", CONTEXTS := some ["c"], reasoning_required_pred := some "y" }

/-- Fixture: record missing the answer field. -/
def recC6a : SourceRecord :=
  { QUESTION := some "q", CONTEXTS := some ["c"], LABELS := some ["l"] }

/-- Fixture: record missing `CONTEXTS`, with a nonempty label list. -/
def recC6c : SourceRecord :=
  { QUESTION := some "q", LABELS := some ["l"], reasoning_required_pred := some "y" }

/-- Fixture: record missing `CONTEXTS`, with an empty label list. -/
def recC6e : SourceRecord :=
  { QUESTION := some "q", LABELS := some [], reasoning_required_pred := some "yes" }

/-- C6 counterexample: a record lacking its context sequence is transformed
successfully when its label sequence is empty — the loop body that reads
`CONTEXTS` never runs, so no missing-field error is raised. -/
theorem spec_C6_counterexample :
    recC6e.CONTEXTS = none ∧
    convert_to_jsonl (Except.ok [("q1", recC6e)]) =
      Except.ok ([{ input := "QUESTION:q\nCONTEXT: " ++ instructionTarget, output := "yes" }],
        write_jsonl [{ input := "QUESTION:q\nCONTEXT: " ++ instructionTarget, output := "yes" }]) :=
  ⟨rfl, by decide⟩

/-- Failure of `form_example` on a record whose prompt construction succeeds
but whose answer field is missing: exactly the missing-field error naming
`reasoning_required_pred`. -/
theorem form_example_reasoning_none_ok (r : SourceRecord) (st : String)
    (hq : form_question r = Except.ok st) (ha : r.reasoning_required_pred = none) :
    form_example r = Except.error (PyError.keyError "reasoning_required_pred") := by
  simp only [form_example, hq, except_bind_ok, getKey, ha, except_bind_err]

/-- Fixture: record missing the answer field whose labels outnumber its
contexts, so prompt construction raises first. -/
def recC6x : SourceRecord :=
  { QUESTION := some "q", CONTEXTS := some ["c"], LABELS := some ["a", "b"] }

/-- C6 amended: a record lacking `QUESTION` fails with the missing-field
error `KeyError "QUESTION"`; one with a question but no `LABELS` fails with
`KeyError "LABELS"`; one with a question and a nonempty label list but no
`CONTEXTS` fails with `KeyError "CONTEXTS"`, raised by the first loop
iteration.  A record lacking the answer field always fails, but with the
missing-field error `KeyError "reasoning_required_pred"` only when prompt
construction succeeds; when prompt construction itself raises, that earlier
error is surfaced instead (for a label/context length mismatch an index
error, not a missing-field error), because the prompt is built before the
answer lookup.  A record lacking only `CONTEXTS` while its label list is
empty is transformed successfully: the loop body that would read `CONTEXTS`
never runs. -/
theorem spec_C6_amended (r : SourceRecord) (k : String) :
    (r.QUESTION = none →
      convert_to_jsonl (Except.ok [(k, r)]) = Except.error (PyError.keyError "QUESTION")) ∧
    (∀ q, r.QUESTION = some q → r.LABELS = none →
      convert_to_jsonl (Except.ok [(k, r)]) = Except.error (PyError.keyError "LABELS")) ∧
    (∀ q l rest, r.QUESTION = some q → r.LABELS = some (l :: rest) → r.CONTEXTS = none →
      convert_to_jsonl (Except.ok [(k, r)]) = Except.error (PyError.keyError "CONTEXTS")) ∧
    (r.reasoning_required_pred = none →
      isErr (convert_to_jsonl (Except.ok [(k, r)])) = true) ∧
    (∀ st, r.reasoning_required_pred = none → form_question r = Except.ok st →
      convert_to_jsonl (Except.ok [(k, r)]) =
        Except.error (PyError.keyError "reasoning_required_pred")) ∧
    (∀ e, form_question r = Except.error e →
      convert_to_jsonl (Except.ok [(k, r)]) = Except.error e) ∧
    (∀ q ans, r.QUESTION = some q → r.LABELS = some [] → r.reasoning_required_pred = some ans →
      convert_to_jsonl (Except.ok [(k, r)]) =
        Except.ok
          ([{ input := "QUESTION:" ++ q ++ "\n" ++ "CONTEXT: " ++ instructionTarget,
              output := ans }],
           write_jsonl [{ input := "QUESTION:" ++ q ++ "\n" ++ "CONTEXT: " ++ instructionTarget,
                          output := ans }])) := by
  refine ⟨?_, ?_, ?_, ?_, ?_, ?_, ?_⟩
  · intro hQ
    exact convert_one_err k r _ (form_example_err_of_fq r _ (form_question_q_none r hQ))
  · intro q hQ hL
    exact convert_one_err k r _ (form_example_err_of_fq r _ (form_question_labels_none r q hQ hL))
  · intro q l rest hQ hL hC
    exact convert_one_err k r _
      (form_example_err_of_fq r _ (form_question_contexts_none r q l rest hQ hL hC))
  · intro hA
    cases hfq : form_question r with
    | error e =>
      rw [convert_one_err k r e (form_example_err_of_fq r e hfq)]
      rfl
    | ok st =>
      rw [convert_one_err k r _ (form_example_reasoning_none_ok r st hfq hA)]
      rfl
  · intro st hA hfq
    exact convert_one_err k r _ (form_example_reasoning_none_ok r st hfq hA)
  · intro e hfq
    exact convert_one_err k r _ (form_example_err_of_fq r e hfq)
  · intro q ans hQ hL hA
    exact convert_one_ok k r _
      (form_example_ok_of r _ ans (form_question_empty_labels r q hQ hL) hA)

/-- Witness for the amended C6: each missing-field shape fails with its exact
error — including the record missing only its answer field that fails with
the index error of prompt construction — and the missing-`CONTEXTS`
empty-`LABELS` shape succeeds. -/
theorem spec_C6_witness :
    convert_to_jsonl (Except.ok [("a", recC6q)]) =
      Except.error (PyError.keyError "QUESTION") ∧
    convert_to_jsonl (Except.ok [("a", recC6l)]) =
      Except.error (PyError.keyError "LABELS") ∧
    convert_to_jsonl (Except.ok [("a", recC6c)]) =
      Except.error (PyError.keyError "CONTEXTS") ∧
    isErr (convert_to_jsonl (Except.ok [("a", recC6a)])) = true ∧
    convert_to_jsonl (Except.ok [("a", recC6a)]) =
      Except.error (PyError.keyError "reasoning_required_pred") ∧
    convert_to_jsonl (Except.ok [("a", recC6x)]) = Except.error PyError.indexError ∧
    convert_to_jsonl (Except.ok [("a", recC6e)]) =
      Except.ok
        ([{ input := "QUESTION:" ++ "q" ++ "\n" ++ "CONTEXT: " ++ instructionTarget,
            output := "yes" }],
         write_jsonl [{ input := "QUESTION:" ++ "q" ++ "\n" ++ "CONTEXT: " ++ instructionTarget,
                        output := "yes" }]) :=
  ⟨(spec_C6_amended recC6q "a").1 rfl,
   (spec_C6_amended recC6l "a").2.1 "q" rfl rfl,
   (spec_C6_amended recC6c "a").2.2.1 "q" "l" [] rfl rfl rfl,
   (spec_C6_amended recC6a "a").2.2.2.1 rfl,
   (spec_C6_amended recC6a "a").2.2.2.2.1
     ("QUESTION:q\nCONTEXT: c\n" ++ instructionTarget) rfl (by decide),
   (spec_C6_amended recC6x "a").2.2.2.2.2.1 PyError.indexError (by decide),
   (spec_C6_amended recC6e "a").2.2.2.2.2.2 "q" "yes" rfl rfl rfl⟩

/-- C7 amended: a source read or parse error, and any record error raised in
the building loop, propagate to the caller unchanged with no retry, before
the output file is opened, so nothing is written for them; an I/O failure
inside the write loop after `k` completed writes is also surfaced with no
retry, but it leaves the output file holding the first `k` lines — a string
prefix of the full content, which is partial output whenever `0 < k <`
record count. -/
theorem spec_C7_amended :
    (∀ e, convert_to_jsonl (Except.error e) = Except.error e) ∧
    (∀ data e, build_objs data = Except.error e →
      convert_to_jsonl (Except.ok data) = Except.error e) ∧
    (∀ objs k, write_jsonl_upto objs k ++
        strConcat ((objs.drop k).map (fun o => json_dumps o ++ "\n")) = write_jsonl objs) := by
  refine ⟨convert_load_err, convert_err_of_build, ?_⟩
  intro objs k
  rw [write_jsonl_upto, write_jsonl, ← strConcat_append, ← List.map_append,
    List.take_append_drop]

/-- Fixture for C7. -/
def objC7a : JsonObj := { input := "a", output := "yes" }

/-- Fixture for C7. -/
def objC7b : JsonObj := { input := "b", output := "no" }

/-- C7 counterexample: after one completed write out of two, the output file
content is neither empty nor the full file — an I/O failure surfacing at the
second write leaves partial output, contradicting all-or-nothing. -/
theorem spec_C7_counterexample :
    ¬ (write_jsonl_upto [objC7a, objC7b] 1 = "" ∨
       write_jsonl_upto [objC7a, objC7b] 1 = write_jsonl [objC7a, objC7b]) := by
  decide

/-- Witness for the amended C7. -/
theorem spec_C7_witness :
    convert_to_jsonl (Except.error (PyError.keyError "bad json")) =
      Except.error (PyError.keyError "bad json") ∧
    convert_to_jsonl (Except.ok [("k", emptyRecord)]) =
      Except.error (PyError.keyError "QUESTION") ∧
    write_jsonl_upto [objC7a, objC7b] 1 ++
        strConcat (([objC7a, objC7b].drop 1).map (fun o => json_dumps o ++ "\n")) =
      write_jsonl [objC7a, objC7b] :=
  ⟨spec_C7_amended.1 _,
   spec_C7_amended.2.1 [("k", emptyRecord)] _ (by decide),
   spec_C7_amended.2.2 [objC7a, objC7b] 1⟩

/-- C8: when the label list is strictly longer than the context list, prompt
construction raises exactly an index error (the access `CONTEXTS[i]` goes out
of range); when the context list is at least as long, prompt construction
succeeds and equals the prompt of the same record with the surplus contexts
dropped — they are silently omitted. -/
theorem spec_C8 (r : SourceRecord) (q : String) (cs ls : List String)
    (hq : r.QUESTION = some q) (hc : r.CONTEXTS = some cs) (hl : r.LABELS = some ls) :
    (cs.length < ls.length → form_question r = Except.error PyError.indexError) ∧
    (ls.length ≤ cs.length →
      form_question r = form_question { r with CONTEXTS := some (cs.take ls.length) } ∧
      isErr (form_question r) = false) := by
  constructor
  · intro hlen
    have hne : ls ≠ [] := by
      intro he
      subst he
      simp only [List.length_nil] at hlen
      omega
    simp only [form_question, getKey, hq, hl, except_bind_ok]
    rw [contextLoop_err ls r cs hc 0 _ hne (by omega)]
    rfl
  · intro hlen
    have h1 := form_question_ok r q cs ls hq hc hl hlen
    have hlen2 : ls.length ≤ (cs.take ls.length).length := by
      simp only [List.length_take]
      omega
    have h2 := form_question_ok { r with CONTEXTS := some (cs.take ls.length) } q
      (cs.take ls.length) ls hq rfl hl hlen2
    refine ⟨?_, by rw [h1]; rfl⟩
    rw [h1, h2]
    have hmap : (List.range ls.length).map (fun i => cs.getD i "" ++ "\n") =
        (List.range ls.length).map (fun i => (cs.take ls.length).getD i "" ++ "\n") := by
      apply List.map_congr_left
      intro i hi
      rw [List.mem_range] at hi
      rw [List.getD_eq_getElem?_getD, List.getD_eq_getElem?_getD,
        List.getElem?_take_of_lt hi]
    rw [hmap]

/-- Fixture for C8: labels strictly longer than contexts. -/
def recC8m : SourceRecord :=
  { QUESTION := some "q", CONTEXTS := some ["c"], LABELS := some ["a", "b"],
    reasoning_required_pred := some "y" }

/-- Fixture for C8: contexts strictly longer than labels. -/
def recC8s : SourceRecord :=
  { QUESTION := some "q", CONTEXTS := some ["c1", "c2"], LABELS := some ["a"],
    reasoning_required_pred := some "y" }

/-- Witness for C8: the mismatched record raises the index error and the
surplus-context record succeeds. -/
theorem spec_C8_witness :
    form_question recC8m = Except.error PyError.indexError ∧
    isErr (form_question recC8s) = false :=
  ⟨(spec_C8 recC8m "q" ["c"] ["a", "b"] rfl rfl rfl).1 (by decide),
   ((spec_C8 recC8s "q" ["c1", "c2"] ["a"] rfl rfl rfl).2 (by decide)).2⟩

/-- C9: on a successful run the written file is exactly the concatenation of
one serialized line plus newline per produced record, and every such line
parses as a JSON object with exactly two members, `input` and `output`, both
JSON strings, whose decoded values are the record's two fields. -/
theorem spec_C9 (data : List (String × SourceRecord)) (objs : List JsonObj) (content : String)
    (h : convert_to_jsonl (Except.ok data) = Except.ok (objs, content)) :
    content = strConcat (objs.map (fun o => json_dumps o ++ "\n")) ∧
    ∀ o, o ∈ objs →
      parseTwoFieldLine (json_dumps o) = some [("input", o.input), ("output", o.output)] := by
  obtain ⟨_, hcont⟩ := convert_ok_elim data objs content h
  exact ⟨hcont, fun o _ => parse_dumps o⟩

/-- Fixture for C9. -/
def recC9 : SourceRecord :=
  { QUESTION := some "W?", CONTEXTS := some ["cw"], LABELS := some ["l"],
    reasoning_required_pred := some "maybe" }

/-- Fixture: the record the conversion produces for `recC9`. -/
def objC9 : JsonObj :=
  { input := "QUESTION:W?\nCONTEXT: cw\n" ++ instructionTarget, output := "maybe" }

/-- Witness for C9 at a concrete one-record run. -/
theorem spec_C9_witness :
    write_jsonl [objC9] = strConcat ([objC9].map (fun o => json_dumps o ++ "\n")) ∧
    parseTwoFieldLine (json_dumps objC9) =
      some [("input", objC9.input), ("output", objC9.output)] :=
  have h := spec_C9 [("q1", recC9)] [objC9] (write_jsonl [objC9]) (by decide)
  ⟨h.1, h.2 objC9 (by decide)⟩

/-- C10: the transformation is deterministic — two runs of the conversion on
the same parsed source give the same returned list and byte-identical file
content; the embedded transformation is a pure function of the parsed
source, with no other input. -/
theorem spec_C10 (loaded : Except PyError (List (String × SourceRecord)))
    (r1 r2 : Except PyError (List JsonObj × String))
    (h1 : convert_to_jsonl loaded = r1) (h2 : convert_to_jsonl loaded = r2) : r1 = r2 :=
  h1.symm.trans h2

/-- Fixture for C10. -/
def recC10 : SourceRecord :=
  { QUESTION := some "t", CONTEXTS := some [], LABELS := some [],
    reasoning_required_pred := some "ok" }

/-- Fixture: the record the conversion produces for `recC10`. -/
def objC10 : JsonObj := { input := "QUESTION:t\nCONTEXT: " ++ instructionTarget, output := "ok" }

/-- Witness for C10: two concrete runs produce the same pair. -/
theorem spec_C10_witness :
    (Except.ok ([objC10], write_jsonl [objC10]) : Except PyError (List JsonObj × String)) =
      Except.ok ([objC10], write_jsonl [objC10]) :=
  spec_C10 (Except.ok [("q1", recC10)]) _ _ (by decide) (by decide)
